import Mathlib

/-!
Verification development for the cashbook ledger application.

The application is a multi-user income/expense ledger with role-based
permissions, transaction search/filter, spending limits, report generation,
receipt uploads and audit logging.  This file gives a shallow embedding of
the relevant logic and proves properties about it:

* amounts (SQL `Numeric(12,2)` / Python `Decimal`) are modelled as `ℚ`;
* dates are modelled as year/month/day triples compared lexicographically;
* SQL query chains over the transactions table are modelled as `List.filter`
  chains in the order the route handlers build them;
* SQL `ILIKE` is modelled by a pattern matcher over lowercased character
  lists with the `%` and `_` wildcards;
* the current date (`date.today()`) and the request context are passed as
  explicit parameters.
-/

namespace Cashbook

/-! ## Generic list helpers -/

/-- Boolean test that `t` is a leading segment of `s` (character lists). -/
def startsWithL : List Char → List Char → Bool
  | [], _ => true
  | _ :: _, [] => false
  | a :: as, b :: bs => a == b && startsWithL as bs

/-- Boolean test that `s` ends with `t` (character lists). -/
def listEndsWith (s t : List Char) : Bool :=
  startsWithL t.reverse s.reverse

/-- Boolean test that `t` occurs contiguously inside `s`. -/
def occursIn (t : List Char) : List Char → Bool
  | [] => startsWithL t []
  | c :: cs => startsWithL t (c :: cs) || occursIn t cs

theorem startsWithL_iff (t : List Char) : ∀ s, startsWithL t s = true ↔ ∃ r, s = t ++ r := by
  induction t with
  | nil => intro s; simp [startsWithL]
  | cons a as ih =>
    intro s
    cases s with
    | nil => simp [startsWithL]
    | cons b bs =>
      simp only [startsWithL, Bool.and_eq_true, beq_iff_eq, ih bs]
      constructor
      · rintro ⟨rfl, r, rfl⟩; exact ⟨r, rfl⟩
      · rintro ⟨r, hr⟩
        rw [List.cons_append] at hr
        cases hr
        exact ⟨rfl, r, rfl⟩

theorem listEndsWith_iff (s t : List Char) : listEndsWith s t = true ↔ ∃ p, s = p ++ t := by
  unfold listEndsWith
  rw [startsWithL_iff]
  constructor
  · rintro ⟨r, hr⟩
    refine ⟨r.reverse, ?_⟩
    have := congrArg List.reverse hr
    simpa using this
  · rintro ⟨p, rfl⟩
    exact ⟨p.reverse, by simp⟩

theorem occursIn_iff (t : List Char) : ∀ s, occursIn t s = true ↔ ∃ u v, s = u ++ t ++ v := by
  intro s
  induction s with
  | nil =>
    simp only [occursIn, startsWithL_iff]
    constructor
    · rintro ⟨r, hr⟩; exact ⟨[], r, by simpa using hr⟩
    · rintro ⟨u, v, huv⟩
      have h0 : u = [] ∧ t = [] ∧ v = [] := by
        have h' := huv.symm
        simpa [and_assoc] using h'
      exact ⟨[], by simp [h0.2.1]⟩
  | cons c cs ih =>
    simp only [occursIn, Bool.or_eq_true, startsWithL_iff, ih]
    constructor
    · rintro (⟨r, hr⟩ | ⟨u, v, rfl⟩)
      · exact ⟨[], r, by simpa using hr⟩
      · exact ⟨c :: u, v, by simp⟩
    · rintro ⟨u, v, huv⟩
      cases u with
      | nil => exact Or.inl ⟨v, by simpa using huv⟩
      | cons a u =>
        rw [List.cons_append, List.cons_append] at huv
        cases huv
        exact Or.inr ⟨u, v, rfl⟩

/-- Insert into a list sorted by the boolean comparator `le`. -/
def insertSorted {α : Type} (le : α → α → Bool) (a : α) : List α → List α
  | [] => [a]
  | b :: l => if le a b then a :: b :: l else b :: insertSorted le a l

/-- Insertion sort by a boolean comparator; models an SQL `ORDER BY`. -/
def sortByB {α : Type} (le : α → α → Bool) : List α → List α
  | [] => []
  | a :: l => insertSorted le a (sortByB le l)

theorem mem_insertSorted {α : Type} (le : α → α → Bool) (a x : α) :
    ∀ l, x ∈ insertSorted le a l ↔ x = a ∨ x ∈ l := by
  intro l
  induction l with
  | nil => simp [insertSorted]
  | cons b l ih =>
    simp only [insertSorted]
    split
    · simp
    · simp only [List.mem_cons, ih]
      tauto

theorem mem_sortByB {α : Type} (le : α → α → Bool) (x : α) :
    ∀ l, x ∈ sortByB le l ↔ x ∈ l := by
  intro l
  induction l with
  | nil => simp [sortByB]
  | cons a l ih => simp [sortByB, mem_insertSorted, ih]

theorem mem_ite_filter {α : Type} (c : Prop) [Decidable c] (p : α → Bool) (l : List α) (t : α) :
    t ∈ (if c then l.filter p else l) ↔ t ∈ l ∧ (c → p t = true) := by
  split
  · simp only [List.mem_filter]; tauto
  · tauto

theorem mem_ite_filter_neg {α : Type} (c : Prop) [Decidable c] (p : α → Bool) (l : List α) (t : α) :
    t ∈ (if c then l else l.filter p) ↔ t ∈ l ∧ (¬ c → p t = true) := by
  split
  · tauto
  · simp only [List.mem_filter]; tauto

theorem mem_opt_filter {α β : Type} (o : Option β) (p : β → α → Bool) (l : List α) (t : α) :
    t ∈ (match o with | some d => l.filter (p d) | none => l) ↔
      t ∈ l ∧ (∀ d, o = some d → p d t = true) := by
  cases o with
  | none => simp
  | some d => simp [List.mem_filter]

/-! ## Dates

Transaction and period dates; comparison is lexicographic on
(year, month, day), as for SQL `Date` columns. -/

structure Date where
  y : Nat
  m : Nat
  d : Nat
deriving DecidableEq

/-- Boolean `a ≤ b` on dates, lexicographic. -/
def dateLeB (a b : Date) : Bool :=
  a.y < b.y || (a.y == b.y && (a.m < b.m || (a.m == b.m && a.d ≤ b.d)))

/-! ## Data model (`app/models.py`) -/

/-- A row of the `users` table, with the role name denormalised in place of
the `role_id` foreign key (`has_permission` only ever reads `role.name`). -/
structure UserRec where
  id : Nat
  username : String
  password_hash : String
  role : String
  is_active : Bool
deriving DecidableEq

/-- A row of the `transactions` table.  `notes` and `party` are nullable
columns; `created_at` is an abstract creation timestamp used only for
ordering. -/
structure Tx where
  id : Nat
  type : String
  amount : ℚ
  description : String
  notes : Option String
  party : Option String
  transaction_date : Date
  created_at : Nat
  user_id : Nat
  category_id : Nat
deriving DecidableEq

/-- A row of the `spending_limits` table; `category_id` is a nullable
foreign key (`none` = limit over all categories). -/
structure SpendingLimit where
  type : String
  amount : ℚ
  is_active : Bool
  user_id : Nat
  category_id : Option Nat
deriving DecidableEq

/-! ## Permission evaluator (`User.has_permission`, models.py lines 90-97) -/

/-- The fixed role→permission table from `User.has_permission`. -/
def role_permissions : List (String × List String) :=
  [("Admin", ["create", "read", "update", "delete", "manage_users", "reports", "backup"]),
   ("Manager", ["create", "read", "update", "delete", "reports"]),
   ("Viewer", ["read", "reports"])]

/-- `User.has_permission`: membership of the requested permission in the
role's entry of the fixed table; a missing role yields the empty list
(Python `dict.get(key, [])`). -/
def has_permission (roleName : String) (permission : String) : Bool :=
  ((role_permissions.lookup roleName).getD []).contains permission

/-- The seven actions appearing in the permission table. -/
def all_actions : List String :=
  ["create", "read", "update", "delete", "manage_users", "reports", "backup"]

/-- Claim C2: the permission evaluator grants Admin all seven actions,
Manager exactly create/read/update/delete/reports, Viewer exactly
read/reports, and any other role name nothing at all (for every action,
not just the seven).  It is a pure function `String → String → Bool` of the
role name and action.  -/
theorem C2_permission_evaluator :
    (∀ a ∈ all_actions, has_permission "Admin" a = true) ∧
    (∀ a ∈ all_actions,
      has_permission "Manager" a =
        (["create", "read", "update", "delete", "reports"].contains a)) ∧
    (∀ a ∈ all_actions,
      has_permission "Viewer" a = (["read", "reports"].contains a)) ∧
    (∀ r : String, r ≠ "Admin" → r ≠ "Manager" → r ≠ "Viewer" →
      ∀ a : String, has_permission r a = false) := by
  refine ⟨by decide, by decide, by decide, ?_⟩
  intro r h1 h2 h3 a
  have e1 : (r == "Admin") = false := by simp [h1]
  have e2 : (r == "Manager") = false := by simp [h2]
  have e3 : (r == "Viewer") = false := by simp [h3]
  simp [has_permission, role_permissions, List.lookup, e1, e2, e3]

/-- Concrete instantiation of `C2_permission_evaluator`: Admin may back up,
an unknown role may not even read. -/
theorem C2_permission_evaluator_witness :
    has_permission "Admin" "backup" = true ∧ has_permission "Intruder" "read" = false :=
  ⟨C2_permission_evaluator.1 "backup" (by decide),
   C2_permission_evaluator.2.2.2 "Intruder" (by decide) (by decide) (by decide) "read"⟩

/-! ## Spending limit evaluator (`SpendingLimit`, models.py lines 202-228) -/

/-- `SpendingLimit.get_period_start`: today for a daily limit, the first
day of the current month for a monthly limit, today otherwise. -/
def get_period_start (ltype : String) (today : Date) : Date :=
  if ltype = "daily" then today
  else if ltype = "monthly" then { today with d := 1 }
  else today

/-- `SpendingLimit.get_spent_amount`: sum of the owning user's expense
transactions dated on/after the period start, restricted to the limit's
category when the column is truthy (Python `if self.category_id:` — both
`None` and `0` skip the filter).  An empty result sums to `0`
(`result or 0`). -/
def get_spent_amount (l : SpendingLimit) (txs : List Tx) (today : Date) : ℚ :=
  let period_start := get_period_start l.type today
  let base := txs.filter fun (t : Tx) =>
    t.user_id == l.user_id && t.type == "expense" &&
      dateLeB period_start t.transaction_date
  let base :=
    match l.category_id with
    | some c => if c ≠ 0 then base.filter (fun (t : Tx) => t.category_id == c) else base
    | none => base
  ((base.map (fun (t : Tx) => t.amount)).sum)

/-- `SpendingLimit.is_exceeded`: spent amount strictly above the threshold. -/
def is_exceeded (l : SpendingLimit) (txs : List Tx) (today : Date) : Bool :=
  get_spent_amount l txs today > l.amount

/-! ## Dashboard alerting and spending-check API (routes.py) -/

/-- One entry of the dashboard `spending_alerts` list (routes.py lines
190-201). -/
structure DashboardAlert where
  limit : SpendingLimit
  spent : ℚ
  percentage : ℚ
deriving DecidableEq

/-- The `dashboard` route's alert computation: for a user with the `read`
permission, every one of their limits that is active and exceeded produces
an alert; note the condition is `is_exceeded`, not the 80% warning level. -/
def dashboard_alerts (u : UserRec) (limits : List SpendingLimit) (txs : List Tx)
    (today : Date) : List DashboardAlert :=
  if has_permission u.role "read" then
    ((limits.filter fun l => l.user_id == u.id).filter
        fun l => l.is_active && is_exceeded l txs today).map
      fun l =>
        { limit := l
          spent := get_spent_amount l txs today
          percentage := get_spent_amount l txs today / l.amount * 100 }
  else []

/-- One JSON alert object of the `api_spending_check` route (routes.py
lines 894-919). -/
structure ApiAlert where
  type : String
  limit : ℚ
  spent : ℚ
  percentage : ℚ
  exceeded : Bool
deriving DecidableEq

/-- Python `Decimal * float`: `decimal.Decimal.__mul__` returns
`NotImplemented` for a `float` operand and `float.__rmul__` does the same
for a `Decimal`, so the interpreter raises `TypeError` whatever the two
operand values are.  `routes.py` line 909 evaluates `limit.amount * 0.8`
with `limit.amount` the value of a `Numeric(12, 2)` column — a `Decimal`
on every backend — and `0.8` a float literal (its value, were the
operation defined, modelled as the rational `4/5`). -/
def decimalMulFloat (_d _f : ℚ) : Except String ℚ :=
  .error "TypeError: unsupported operand type(s) for *: decimal.Decimal and float"

/-- The alert loop of `api_spending_check` (routes.py lines 906-916): per
selected limit, query the spent amount, then evaluate
`spent > limit.amount * 0.8` — whose multiplication raises `TypeError` on
the first iteration, so the remainder of the body (appending the alert
dict with the exceeded flag) is unreachable; the uncaught exception
propagates out of the handler.  The dict construction is kept as the
source writes it, with the JSON `float(...)` casts as the identity. -/
def api_check_loop (txs : List Tx) (today : Date) :
    List SpendingLimit → Except String (List ApiAlert)
  | [] => .ok []
  | l :: rest => do
    let spent := get_spent_amount l txs today
    let warnLevel ← decimalMulFloat l.amount (4 / 5)
    let tail ← api_check_loop txs today rest
    .ok (if spent > warnLevel then
        { type := l.type
          limit := l.amount
          spent := spent
          percentage := spent / l.amount * 100
          exceeded := decide (spent > l.amount) } :: tail
      else tail)

/-- The `/api/spending-check/<category_id>` route: selects the requester's
active limits whose (nullable) category column equals the requested
category (`0` meaning the all-categories limit), then runs the alert loop;
with one or more limits selected the loop raises `TypeError` at
`limit.amount * 0.8`, with none it returns the empty alert list. -/
def api_spending_check (u : UserRec) (limits : List SpendingLimit) (txs : List Tx)
    (category_id : Nat) (today : Date) : Except String (List ApiAlert) :=
  let sel := limits.filter fun l =>
    l.user_id == u.id &&
      l.category_id == (if category_id ≠ 0 then some category_id else none) &&
      l.is_active
  api_check_loop txs today sel

/-! ## Report generators (`app/utils.py`) -/

/-- Description truncation used by the PDF detail rows
(`description[:50] + ('...' if len > 50 else '')`). -/
def truncDesc (s : String) : String :=
  if s.length > 50 then String.mk (s.toList.take 50) ++ "..." else s

/-- Abstraction of the PDF document produced by `generate_pdf_report`:
the three summary aggregates and one detail row per transaction
(date, type, truncated description, category name, amount).  The binary
page layout is out of scope. -/
structure PdfReport where
  total_income : ℚ
  total_expense : ℚ
  net_amount : ℚ
  rows : List (Date × String × String × String × ℚ)
deriving DecidableEq

/-- `generate_pdf_report` (utils.py lines 56-145); `cats` maps category ids
to names for the `transaction.category.name` relationship lookup. -/
def generate_pdf_report (txs : List Tx) (cats : List (Nat × String)) : PdfReport :=
  let total_income := ((txs.filter fun t => t.type == "income").map (fun t => t.amount)).sum
  let total_expense := ((txs.filter fun t => t.type == "expense").map (fun t => t.amount)).sum
  { total_income := total_income
    total_expense := total_expense
    net_amount := total_income - total_expense
    rows := txs.map fun t =>
      (t.transaction_date, t.type, truncDesc t.description,
        (cats.lookup t.category_id).getD "", t.amount) }

/-- Abstraction of the workbook produced by `generate_excel_report`: the
detail rows (date, type, full description, category name, party, amount,
notes) and the three aggregates of the summary sheet. -/
structure ExcelReport where
  rows : List (Date × String × String × String × String × ℚ × String)
  summary_total_income : ℚ
  summary_total_expense : ℚ
  summary_net_amount : ℚ

/-- `generate_excel_report` (utils.py lines 147-211); nullable `party` and
`notes` render as the empty string (`or ''`). -/
def generate_excel_report (txs : List Tx) (cats : List (Nat × String)) : ExcelReport :=
  let total_income := ((txs.filter fun t => t.type == "income").map (fun t => t.amount)).sum
  let total_expense := ((txs.filter fun t => t.type == "expense").map (fun t => t.amount)).sum
  { rows := txs.map fun t =>
      (t.transaction_date, t.type, t.description, (cats.lookup t.category_id).getD "",
        t.party.getD "", t.amount, t.notes.getD "")
    summary_total_income := total_income
    summary_total_expense := total_expense
    summary_net_amount := total_income - total_expense }

/-! ## SQL ILIKE (used by the transaction search) -/

/-- Lowercase a character list (SQL `ILIKE` folds case per character, as
does Python `str.lower` for ASCII). -/
def lc (l : List Char) : List Char := l.map Char.toLower

/-- SQL `LIKE` pattern matching over character lists: `%` matches any
(possibly empty) sequence, `_` matches exactly one character, every other
pattern character matches itself. -/
def likeMatch : List Char → List Char → Bool
  | [], s => s.isEmpty
  | p :: pr, [] => p == '%' && likeMatch pr []
  | p :: pr, c :: cs =>
    if p = '%' then likeMatch pr (c :: cs) || likeMatch (p :: pr) cs
    else (p == '_' || p == c) && likeMatch pr cs
termination_by p s => (p.length, s.length)

/-- SQLAlchemy `column.ilike(pattern)`: `NULL` columns never match; both
sides are case-folded. -/
def ilike (col : Option String) (pattern : String) : Bool :=
  match col with
  | none => false
  | some s => likeMatch (lc pattern.toList) (lc s.toList)

/-! ## Transaction list route (`transactions`, routes.py lines 211-282) -/

/-- The optional search parameters of the transactions list; mirroring the
route's truthiness checks, an empty `search_term` or `type` and a zero
`category_id` mean "not supplied". -/
structure SearchParams where
  search_term : String
  category_id : Nat
  type : String
  start_date : Option Date
  end_date : Option Date
deriving DecidableEq

/-- The search disjunction: `description ILIKE pat OR notes ILIKE pat OR
party ILIKE pat` with `pat = "%" + term + "%"`. -/
def searchPred (term : String) (t : Tx) : Bool :=
  ilike (some t.description) ("%" ++ term ++ "%") ||
    ilike t.notes ("%" ++ term ++ "%") || ilike t.party ("%" ++ term ++ "%")

/-- The `if value: query = query.filter(...)` idiom of the route handlers:
apply the filter only when the condition holds. -/
def condFilter {α : Type} (c : Prop) [Decidable c] (p : α → Bool) (l : List α) : List α :=
  if c then l.filter p else l

/-- The same idiom for an optional value (`if form.field.data:` on a
nullable field). -/
def optFilter {α β : Type} (o : Option β) (p : β → α → Bool) (l : List α) : List α :=
  match o with
  | some d => l.filter (p d)
  | none => l

theorem mem_condFilter {α : Type} (c : Prop) [Decidable c] (p : α → Bool) (l : List α) (t : α) :
    t ∈ condFilter c p l ↔ t ∈ l ∧ (c → p t = true) := by
  unfold condFilter
  split
  · simp only [List.mem_filter]; tauto
  · tauto

theorem mem_optFilter {α β : Type} (o : Option β) (p : β → α → Bool) (l : List α) (t : α) :
    t ∈ optFilter o p l ↔ t ∈ l ∧ (∀ d, o = some d → p d t = true) := by
  cases o with
  | none => simp [optFilter]
  | some d => simp [optFilter, List.mem_filter]

/-- The filter chain of the `transactions` route, in source order:
ownership restriction for requesters without `manage_users`, then the
free-text, category, type and date-range filters. -/
def transactionsFiltered (txs : List Tx) (u : UserRec) (p : SearchParams) : List Tx :=
  let q := if has_permission u.role "manage_users" then txs
    else txs.filter fun t => t.user_id == u.id
  let q := condFilter (p.search_term ≠ "") (searchPred p.search_term) q
  let q := condFilter (p.category_id ≠ 0) (fun t => t.category_id == p.category_id) q
  let q := condFilter (p.type ≠ "") (fun t => t.type == p.type) q
  let q := optFilter p.start_date (fun sd t => dateLeB sd t.transaction_date) q
  let q := optFilter p.end_date (fun ed t => dateLeB t.transaction_date ed) q
  q

/-- The route's ordering: transaction date descending, then creation
timestamp descending. -/
def txOrd (a b : Tx) : Bool :=
  if a.transaction_date = b.transaction_date then decide (b.created_at ≤ a.created_at)
  else dateLeB b.transaction_date a.transaction_date

/-- `query.paginate(page=…, per_page=…, error_out=False)`: offset slice;
pages below 1 are clamped to 1 and out-of-range pages are empty. -/
def paginate {α : Type} (l : List α) (page per_page : Nat) : List α :=
  let p := max page 1
  (l.drop ((p - 1) * per_page)).take per_page

/-- The full `transactions` route result: filter, order, paginate with a
page size of 20. -/
def transactions (txs : List Tx) (u : UserRec) (p : SearchParams) (page : Nat) : List Tx :=
  paginate (sortByB txOrd (transactionsFiltered txs u p)) page 20

/-! ## Report query (`reports`, routes.py lines 534-608) -/

/-- The report form's filter chain: the user filter honours `manage_users`
(a non-privileged requester is always pinned to their own id, whatever
`user_id` value the form carries), then the mandatory date range and the
optional category and type filters, ordered by date descending. -/
def reportQuery (txs : List Tx) (u : UserRec) (user_id : Nat)
    (start_date end_date : Date) (category_id : Nat) (rtype : String) : List Tx :=
  let q :=
    if user_id ≠ 0 then
      if has_permission u.role "manage_users" then txs.filter fun t => t.user_id == user_id
      else txs.filter fun t => t.user_id == u.id
    else if has_permission u.role "manage_users" then txs
    else txs.filter fun t => t.user_id == u.id
  let q := q.filter fun t =>
    dateLeB start_date t.transaction_date && dateLeB t.transaction_date end_date
  let q := condFilter (category_id ≠ 0) (fun t => t.category_id == category_id) q
  let q := condFilter (rtype ≠ "") (fun t => t.type == rtype) q
  sortByB (fun a b => dateLeB b.transaction_date a.transaction_date) q

/-! ## Receipt upload (`app/utils.py` lines 17-31, `app/forms.py` line 48,
`add_transaction` routes.py lines 288-375) -/

/-- Characters after the last dot of a filename (Python
`filename.rsplit('.', 1)[1]`), scanning the reversed list. -/
def takeUntilDot : List Char → Option (List Char)
  | [] => none
  | c :: cs => if c = '.' then some [] else (takeUntilDot cs).map (fun e => c :: e)

/-- Extension of a filename: `none` when the name has no dot. -/
def afterLastDot (s : List Char) : Option (List Char) :=
  (takeUntilDot s.reverse).map List.reverse

/-- The extension whitelist of `utils.allowed_file`. -/
def ALLOWED_EXTENSIONS : List String := ["pdf", "png", "jpg", "jpeg", "gif"]

/-- `utils.allowed_file`: the name contains a dot and its lowercased last
extension is in the whitelist. -/
def allowed_file (filename : String) : Bool :=
  match afterLastDot filename.toList with
  | some ext => ALLOWED_EXTENSIONS.any fun e => lc ext == e.toList
  | none => false

/-- An uploaded multipart file (werkzeug `FileStorage`), reduced to its
client-supplied filename. -/
structure UploadedFile where
  filename : String
deriving DecidableEq

/-- `utils.save_uploaded_file`: for an allowed file, store it under
`uuid + '.' + lowercased extension` and return that generated name;
otherwise return `None` — silently, no error.  The fresh UUID string is an
explicit parameter. -/
def save_uploaded_file (uuidStr : String) (file : Option UploadedFile) : Option String :=
  match file with
  | none => none
  | some f =>
    if allowed_file f.filename then
      match afterLastDot f.filename.toList with
      | some ext => some (uuidStr ++ "." ++ String.mk (lc ext))
      | none => none
    else none

/-- The `FileAllowed` whitelist declared on `TransactionForm.receipts`
(forms.py line 48) — note: no `gif`. -/
def form_receipt_exts : List String := ["pdf", "png", "jpg", "jpeg"]

/-- Semantics of the wtforms `FileAllowed` validator: passes when no file
(or an empty filename) is submitted, otherwise requires the lowercased
filename to end with a dot followed by one of the listed extensions. -/
def fileAllowed (upload_set : List String) (file : Option UploadedFile) : Bool :=
  match file with
  | none => true
  | some f =>
    if f.filename = "" then true
    else upload_set.any fun ext => listEndsWith (lc f.filename.toList) ('.' :: ext.toList)

/-- Outcome of submitting the add-transaction form with an optional
receipt: either the form fails validation (nothing persisted, the form is
re-rendered with a field error), or the transaction is created, carrying
the stored receipt filename when one was saved. -/
inductive AddTxOutcome
  | formError
  | created (receipt : Option String)
deriving DecidableEq

/-- The receipt-relevant behaviour of the `add_transaction` route:
`form.validate_on_submit()` runs the `FileAllowed` validator, and only on
success does the route create the transaction and call
`save_uploaded_file`, adding a `Receipt` row exactly when a filename comes
back. -/
def add_transaction (uuidStr : String) (file : Option UploadedFile) : AddTxOutcome :=
  if fileAllowed form_receipt_exts file then .created (save_uploaded_file uuidStr file)
  else .formError

/-! ## Audit logger (`utils.log_audit_action`, utils.py lines 213-233) -/

/-- A row of the `audit_logs` table (request metadata omitted). -/
structure AuditLogRec where
  user_id : Option Nat
  action : String
  table_name : Option String
  record_id : Option Nat
  old_values : Option String
  new_values : Option String
deriving DecidableEq

/-- Result of one audit-log call: either the record was written, or the
failure was caught and routed to the application logger.  The type has no
propagating-exception constructor: the `try/except` wraps the whole body. -/
inductive AuditResult
  | written (rec : AuditLogRec)
  | swallowed (msg : String)
deriving DecidableEq

/-- `utils.log_audit_action`: the record construction, JSON serialisation
and commit are modelled as one fallible `attempt`; any failure is caught
and converted into a logged message. -/
def log_audit_action (attempt : Except String AuditLogRec) : AuditResult :=
  match attempt with
  | .ok rec => .written rec
  | .error e => .swallowed ("Error logging audit action: " ++ e)

/-- The calling pattern of every mutating route: the primary operation
commits first, then the audit write is attempted; on audit failure the
already-committed state `(primary s).1` is kept unchanged. -/
def routeWithAudit {σ α : Type} (primary : σ → σ × α)
    (audit : σ → Except String (σ × AuditLogRec)) (s : σ) : σ × α × AuditResult :=
  let r := primary s
  match audit r.1 with
  | .ok (s2, rec) => (s2, r.2, .written rec)
  | .error e => (r.1, r.2, .swallowed ("Error logging audit action: " ++ e))

/-! ## Login (`login`, routes.py lines 84-142) -/

/-- Outcome of a login attempt: a session for the given user id, or the
login form re-rendered with either the deactivated-account error or the
invalid-credentials error. -/
inductive LoginOutcome
  | success (user_id : Nat)
  | deactivatedError
  | invalidError
deriving DecidableEq

/-- The `login` route: find the user by username, verify the password
(`check_password_hash` is the explicit `verify` parameter), refuse
inactive accounts before establishing a session or recording the audit
entry.  Returns the outcome, the audit entries written, and the (never
modified) user table. -/
def login (verify : String → String → Bool) (users : List UserRec)
    (username password : String) : LoginOutcome × List AuditLogRec × List UserRec :=
  match users.find? (fun u => u.username == username) with
  | some u =>
    if verify u.password_hash password then
      if !u.is_active then (.deactivatedError, [], users)
      else (.success u.id, [⟨some u.id, "login", none, none, none, none⟩], users)
    else (.invalidError, [], users)
  | none => (.invalidError, [], users)

/-! ## Delete user (`delete_user`, routes.py lines 705-726) -/

/-- Outcome of the delete-user route. -/
inductive DeleteUserOutcome
  | forbidden
  | notFound
  | selfDeleteError
  | deactivated
deriving DecidableEq

/-- The `delete_user` route: requires `manage_users`; a missing target id
is a 404; deleting one's own account is refused with an error flash and no
change; otherwise the target is soft-deleted (active flag cleared, row
kept) and a `deactivate_user` audit entry is written. -/
def delete_user (users : List UserRec) (requester : UserRec) (targetId : Nat) :
    DeleteUserOutcome × List UserRec × List AuditLogRec :=
  if ¬ has_permission requester.role "manage_users" then (.forbidden, users, [])
  else
    match users.find? (fun u => u.id == targetId) with
    | none => (.notFound, users, [])
    | some u =>
      if u.id == requester.id then (.selfDeleteError, users, [])
      else
        (.deactivated,
          users.map fun v => if v.id = u.id then { v with is_active := false } else v,
          [⟨some requester.id, "deactivate_user", some "users", some u.id, none, none⟩])

/-! ## Membership characterisation of the transaction filter chain -/

theorem mem_transactionsFiltered (txs : List Tx) (u : UserRec) (p : SearchParams) (t : Tx) :
    t ∈ transactionsFiltered txs u p ↔
      t ∈ txs
      ∧ (has_permission u.role "manage_users" = false → t.user_id = u.id)
      ∧ (p.search_term ≠ "" → searchPred p.search_term t = true)
      ∧ (p.category_id ≠ 0 → t.category_id = p.category_id)
      ∧ (p.type ≠ "" → t.type = p.type)
      ∧ (∀ d, p.start_date = some d → dateLeB d t.transaction_date = true)
      ∧ (∀ d, p.end_date = some d → dateLeB t.transaction_date d = true) := by
  simp only [transactionsFiltered, mem_optFilter, mem_condFilter, mem_ite_filter_neg,
    Bool.not_eq_true, beq_iff_eq]
  tauto

theorem C1_sub_transactions (txs : List Tx) (u : UserRec) (p : SearchParams) (page : Nat)
    (t : Tx) (hnm : has_permission u.role "manage_users" = false)
    (ht : t ∈ transactions txs u p page) : t.user_id = u.id := by
  unfold transactions paginate at ht
  have h1 : t ∈ sortByB txOrd (transactionsFiltered txs u p) :=
    List.drop_subset _ _ (List.take_subset _ _ ht)
  rw [mem_sortByB] at h1
  exact ((mem_transactionsFiltered txs u p t).mp h1).2.1 hnm

theorem C1_sub_reports (txs : List Tx) (u : UserRec) (user_id : Nat)
    (start_date end_date : Date) (category_id : Nat) (rtype : String) (t : Tx)
    (hnm : has_permission u.role "manage_users" = false)
    (ht : t ∈ reportQuery txs u user_id start_date end_date category_id rtype) :
    t.user_id = u.id := by
  unfold reportQuery at ht
  rw [mem_sortByB] at ht
  obtain ⟨ht, -⟩ := (mem_condFilter _ _ _ _).mp ht
  obtain ⟨ht, -⟩ := (mem_condFilter _ _ _ _).mp ht
  obtain ⟨ht, -⟩ := List.mem_filter.mp ht
  simp only [hnm, Bool.false_eq_true, if_false] at ht
  by_cases h0 : user_id ≠ 0
  · rw [if_pos h0] at ht
    simpa using (List.mem_filter.mp ht).2
  · rw [if_neg h0] at ht
    simpa using (List.mem_filter.mp ht).2

/-- Claim C1: a requester without the `manage_users` permission only ever
sees their own transactions, both in the paginated transaction list (for
every combination of search term, category, type, date range and page) and
in the report query. -/
theorem C1_nonprivileged_sees_only_own (txs : List Tx) (u : UserRec) (p : SearchParams)
    (page : Nat) (user_id : Nat) (start_date end_date : Date) (category_id : Nat)
    (rtype : String) (t : Tx)
    (hnm : has_permission u.role "manage_users" = false) :
    (t ∈ transactions txs u p page → t.user_id = u.id) ∧
    (t ∈ reportQuery txs u user_id start_date end_date category_id rtype →
      t.user_id = u.id) :=
  ⟨C1_sub_transactions txs u p page t hnm,
   C1_sub_reports txs u user_id start_date end_date category_id rtype t hnm⟩

/-- A Viewer requester, a foreign `user_id` filter value, and concrete
transactions instantiating `C1_nonprivileged_sees_only_own`. -/
theorem C1_nonprivileged_sees_only_own_witness :
    (⟨1, "expense", 5, "coffee", none, none, ⟨2025, 6, 1⟩, 1, 7, 1⟩ : Tx).user_id = 7 :=
  (C1_nonprivileged_sees_only_own
      [⟨1, "expense", 5, "coffee", none, none, ⟨2025, 6, 1⟩, 1, 7, 1⟩]
      ⟨7, "viewer", "h", "Viewer", true⟩ ⟨"", 0, "", none, none⟩ 1
      3 ⟨2025, 1, 1⟩ ⟨2025, 12, 31⟩ 0 "" _ (by decide)).1 (by decide)

/-! ## Claims C8, C9, C10 -/

/-- Claim C8: every failure inside the audit logger is caught and logged;
no exception reaches the caller (the result type `AuditResult` has no
propagating constructor and `log_audit_action` is total), and the primary
operation's already-committed state and response survive an audit failure
unchanged. -/
theorem C8_audit_failures_isolated {σ α : Type} (primary : σ → σ × α)
    (audit : σ → Except String (σ × AuditLogRec)) (s : σ)
    (attempt : Except String AuditLogRec) :
    (∀ e, attempt = .error e →
      log_audit_action attempt = .swallowed ("Error logging audit action: " ++ e)) ∧
    (∀ rec, attempt = .ok rec → log_audit_action attempt = .written rec) ∧
    (∀ e, audit (primary s).1 = .error e →
      routeWithAudit primary audit s =
        ((primary s).1, (primary s).2, .swallowed ("Error logging audit action: " ++ e))) := by
  refine ⟨?_, ?_, ?_⟩
  · rintro e rfl; rfl
  · rintro rec rfl; rfl
  · intro e he
    simp [routeWithAudit, he]

/-- A concrete failing audit write instantiating
`C8_audit_failures_isolated`: the primary increment commits, the audit
error is swallowed. -/
theorem C8_audit_failures_isolated_witness :
    log_audit_action (Except.error "db down") =
        AuditResult.swallowed ("Error logging audit action: " ++ "db down") ∧
    routeWithAudit (fun n : Nat => (n + 1, n)) (fun _ => Except.error "db down") 0 =
      (1, 0, AuditResult.swallowed ("Error logging audit action: " ++ "db down")) :=
  ⟨(C8_audit_failures_isolated (fun n : Nat => (n + 1, n))
      (fun _ => Except.error "db down") 0 (Except.error "db down")).1 "db down" rfl,
   (C8_audit_failures_isolated (fun n : Nat => (n + 1, n))
      (fun _ => Except.error "db down") 0 (Except.error "db down")).2.2 "db down" rfl⟩

/-- Claim C9: a correct username/password pair for a deactivated account is
refused: the outcome is the re-rendered login form with the deactivation
error, no session is established, no audit entry is written, and the user
table is returned unchanged. -/
theorem C9_inactive_login_refused (verify : String → String → Bool)
    (users : List UserRec) (username password : String) (u : UserRec)
    (hfind : users.find? (fun v => v.username == username) = some u)
    (hpw : verify u.password_hash password = true)
    (hact : u.is_active = false) :
    login verify users username password = (.deactivatedError, [], users) := by
  simp [login, hfind, hpw, hact]

/-- A deactivated user with matching credentials instantiating
`C9_inactive_login_refused`. -/
theorem C9_inactive_login_refused_witness :
    login (fun h p => h == p) [⟨1, "alice", "pw", "Admin", false⟩] "alice" "pw" =
      (.deactivatedError, [], [⟨1, "alice", "pw", "Admin", false⟩]) :=
  C9_inactive_login_refused (fun h p => h == p) [⟨1, "alice", "pw", "Admin", false⟩]
    "alice" "pw" ⟨1, "alice", "pw", "Admin", false⟩ (by decide) (by decide) (by decide)

/-- Claim C10: an administrator deleting their own id gets an error flash
and nothing changes (in particular their active flag keeps its value);
deleting any other existing user clears that user's active flag, writes a
`deactivate_user` audit entry, keeps the row (same table length), and
leaves every other row unchanged. -/
theorem C10_delete_user_soft (users : List UserRec) (requester : UserRec) (targetId : Nat)
    (u : UserRec)
    (hperm : has_permission requester.role "manage_users" = true)
    (hfind : users.find? (fun v => v.id == targetId) = some u) :
    (targetId = requester.id →
      delete_user users requester targetId = (.selfDeleteError, users, [])) ∧
    (targetId ≠ requester.id →
      delete_user users requester targetId =
        (.deactivated,
          users.map (fun v => if v.id = targetId then { v with is_active := false } else v),
          [⟨some requester.id, "deactivate_user", some "users", some targetId, none, none⟩]) ∧
      (users.map (fun v => if v.id = targetId then { v with is_active := false } else v)).length
          = users.length ∧
      (∀ v ∈ users, v.id ≠ targetId →
        v ∈ users.map (fun w => if w.id = targetId then { w with is_active := false } else w)) ∧
      (∀ v ∈ users, v.id = targetId →
        { v with is_active := false } ∈
          users.map (fun w => if w.id = targetId then { w with is_active := false } else w))) := by
  have hid : u.id = targetId := by
    have h := List.find?_some hfind
    simpa using h
  constructor
  · intro hself
    subst hself
    simp [delete_user, hperm, hfind, hid]
  · intro hne
    have hbeq : (u.id == requester.id) = false := by
      simp [hid, hne]
    refine ⟨by simp [delete_user, hperm, hfind, hbeq, hid, hne], by simp, ?_, ?_⟩
    · intro v hv hvne
      exact List.mem_map.mpr ⟨v, hv, by simp [hvne]⟩
    · intro v hv hveq
      exact List.mem_map.mpr ⟨v, hv, by simp [hveq]⟩

/-- Concrete admin self-delete (no change) and foreign delete
(soft-deactivation) instantiating `C10_delete_user_soft`. -/
theorem C10_delete_user_soft_witness :
    delete_user [⟨1, "root", "h", "Admin", true⟩, ⟨2, "bob", "h", "Viewer", true⟩]
        ⟨1, "root", "h", "Admin", true⟩ 1 =
      (.selfDeleteError,
        [⟨1, "root", "h", "Admin", true⟩, ⟨2, "bob", "h", "Viewer", true⟩], []) ∧
    delete_user [⟨1, "root", "h", "Admin", true⟩, ⟨2, "bob", "h", "Viewer", true⟩]
        ⟨1, "root", "h", "Admin", true⟩ 2 =
      (.deactivated,
        [⟨1, "root", "h", "Admin", true⟩, ⟨2, "bob", "h", "Viewer", false⟩],
        [⟨some 1, "deactivate_user", some "users", some 2, none, none⟩]) := by
  constructor
  · exact (C10_delete_user_soft _ ⟨1, "root", "h", "Admin", true⟩ 1
      ⟨1, "root", "h", "Admin", true⟩ (by decide) (by decide)).1 rfl
  · have h := (C10_delete_user_soft
      [⟨1, "root", "h", "Admin", true⟩, ⟨2, "bob", "h", "Viewer", true⟩]
      ⟨1, "root", "h", "Admin", true⟩ 2 ⟨2, "bob", "h", "Viewer", true⟩
      (by decide) (by decide)).2 (by decide)
    simpa using h.1

/-! ## Claim C3: spending limit evaluation -/

/-- Claim C3: for a limit with a positive threshold (enforced at creation,
as is the `category_id = 0 ↦ None` normalisation), `is_exceeded` holds
exactly when the sum of the owning user's expense transactions dated on or
after the period start (today for daily, the first of the current month
for monthly), restricted to the limit's category when one is set, strictly
exceeds the threshold; in particular a limit with zero period spend is
never exceeded. -/
theorem C3_is_exceeded_iff (l : SpendingLimit) (txs : List Tx) (today : Date)
    (hamt : 0 < l.amount) (hcat : l.category_id ≠ some 0)
    (htype : l.type = "daily" ∨ l.type = "monthly") :
    (is_exceeded l txs today = true ↔
      ((txs.filter fun t =>
          t.user_id == l.user_id && t.type == "expense" &&
            dateLeB (if l.type = "daily" then today else { today with d := 1 })
              t.transaction_date &&
            (match l.category_id with
             | some c => t.category_id == c
             | none => true)).map fun t => t.amount).sum > l.amount) ∧
    (((txs.filter fun t =>
          t.user_id == l.user_id && t.type == "expense" &&
            dateLeB (if l.type = "daily" then today else { today with d := 1 })
              t.transaction_date &&
            (match l.category_id with
             | some c => t.category_id == c
             | none => true)).map fun t => t.amount).sum = 0 →
      is_exceeded l txs today = false) := by
  have hps : get_period_start l.type today =
      (if l.type = "daily" then today else { today with d := 1 }) := by
    rcases htype with h | h <;> simp [get_period_start, h]
  have hspent : get_spent_amount l txs today =
      ((txs.filter fun t =>
          t.user_id == l.user_id && t.type == "expense" &&
            dateLeB (if l.type = "daily" then today else { today with d := 1 })
              t.transaction_date &&
            (match l.category_id with
             | some c => t.category_id == c
             | none => true)).map fun t => t.amount).sum := by
    cases hc : l.category_id with
    | none =>
      simp only [get_spent_amount, hc, hps]
      congr 1
      apply congrArg
      apply List.filter_congr
      intro t _
      simp
    | some c =>
      have hc0 : c ≠ 0 := by
        rintro rfl
        exact hcat (by rw [hc])
      simp only [get_spent_amount, hc, hps, if_pos hc0]
      rw [List.filter_filter]
      congr 1
      apply congrArg
      apply List.filter_congr
      intro t _
      rw [Bool.and_comm]
  constructor
  · rw [show is_exceeded l txs today = decide (get_spent_amount l txs today > l.amount)
        from rfl, decide_eq_true_iff, hspent]
  · intro h0
    have : get_spent_amount l txs today = 0 := by rw [hspent, h0]
    rw [show is_exceeded l txs today = decide (get_spent_amount l txs today > l.amount)
        from rfl, this]
    simp only [decide_eq_false_iff_not]
    exact fun hcontra => absurd hamt (lt_asymm hcontra)

/-- A monthly $100 limit with no spend instantiating `C3_is_exceeded_iff`:
not exceeded. -/
theorem C3_is_exceeded_iff_witness :
    is_exceeded ⟨"monthly", 100, true, 1, none⟩ [] ⟨2025, 6, 15⟩ = false :=
  (C3_is_exceeded_iff ⟨"monthly", 100, true, 1, none⟩ [] ⟨2025, 6, 15⟩
    (by decide) (by decide) (Or.inr rfl)).2 rfl

/-! ## Claim C5: report summary aggregates -/

/-- The three-transaction example of the specification: two incomes of
$500 and $300 and one expense of $200. -/
def exampleTxs : List Tx :=
  [⟨1, "income", 500, "salary", none, none, ⟨2025, 6, 1⟩, 1, 1, 1⟩,
   ⟨2, "income", 300, "bonus", none, none, ⟨2025, 6, 2⟩, 2, 1, 1⟩,
   ⟨3, "expense", 200, "rent", none, none, ⟨2025, 6, 3⟩, 3, 1, 2⟩]

/-- Claim C5: both report encodings compute total income as the sum of the
income-type amounts, total expense as the sum of the expense-type amounts,
and net as their difference, and agree with each other; on the fixed
3-transaction example both yield income 800, expense 200, net 600. -/
theorem C5_report_summaries :
    (∀ (txs : List Tx) (cats : List (Nat × String)),
      (generate_pdf_report txs cats).total_income =
          ((txs.filter fun t => t.type == "income").map fun t => t.amount).sum ∧
      (generate_pdf_report txs cats).total_expense =
          ((txs.filter fun t => t.type == "expense").map fun t => t.amount).sum ∧
      (generate_pdf_report txs cats).net_amount =
        (generate_pdf_report txs cats).total_income -
          (generate_pdf_report txs cats).total_expense ∧
      (generate_excel_report txs cats).summary_total_income =
        (generate_pdf_report txs cats).total_income ∧
      (generate_excel_report txs cats).summary_total_expense =
        (generate_pdf_report txs cats).total_expense ∧
      (generate_excel_report txs cats).summary_net_amount =
        (generate_pdf_report txs cats).net_amount) ∧
    ((generate_pdf_report exampleTxs []).total_income = 800 ∧
      (generate_pdf_report exampleTxs []).total_expense = 200 ∧
      (generate_pdf_report exampleTxs []).net_amount = 600 ∧
      (generate_excel_report exampleTxs []).summary_total_income = 800 ∧
      (generate_excel_report exampleTxs []).summary_total_expense = 200 ∧
      (generate_excel_report exampleTxs []).summary_net_amount = 600) := by
  constructor
  · intro txs cats
    refine ⟨rfl, rfl, rfl, rfl, rfl, rfl⟩
  · refine ⟨?_, ?_, ?_, ?_, ?_, ?_⟩ <;>
      norm_num [generate_pdf_report, generate_excel_report, exampleTxs,
        List.filter_cons, List.filter_nil,
        show ("income" == "income") = true from rfl,
        show ("income" == "expense") = false from rfl,
        show ("expense" == "income") = false from rfl,
        show ("expense" == "expense") = true from rfl]

/-! ## Claim C4: warning and exceeded conditions of the two alert surfaces -/

/-- A monthly limit of $100 for user 1 over all categories. -/
def c4limit : SpendingLimit := ⟨"monthly", 100, true, 1, none⟩

/-- $120 of expenses recorded this month. -/
def c4txs120 : List Tx :=
  [⟨9, "expense", 120, "shopping", none, none, ⟨2025, 6, 10⟩, 1, 1, 3⟩]

/-- $90 of expenses recorded this month: above the 80% warning level,
below the threshold. -/
def c4txs90 : List Tx :=
  [⟨9, "expense", 90, "shopping", none, none, ⟨2025, 6, 10⟩, 1, 1, 3⟩]

/-- A fixed current date inside the month of the sample transactions. -/
def c4today : Date := ⟨2025, 6, 15⟩

/-- The admin requester of the C4 scenarios. -/
def c4user : UserRec := ⟨1, "alice", "h", "Admin", true⟩

/-- Claim C4 (amended): the dashboard raises an alert exactly when the
limit is exceeded (period spend strictly greater than the threshold), not
at the 80% warning level; the spending-check API never reports any
warning at all — whenever its category filter selects at least one of the
requester's active limits, the handler raises an uncaught `TypeError`
(the `Decimal` threshold multiplied by the float `0.8`), and with no
matching limit it returns the empty alert list.  With threshold $100 and
$120 spent this month the dashboard alert condition holds and an alert is
raised, while the API request errors instead of reporting warning or
exceedance. -/
theorem C4_alert_conditions :
    (∀ (u : UserRec) (limits : List SpendingLimit) (txs : List Tx) (cid : Nat)
        (today : Date),
      (∀ alerts, api_spending_check u limits txs cid today = .ok alerts → alerts = []) ∧
      ((limits.filter fun l =>
          l.user_id == u.id &&
            l.category_id == (if cid ≠ 0 then some cid else none) &&
            l.is_active) = [] →
        api_spending_check u limits txs cid today = .ok []) ∧
      ((limits.filter fun l =>
          l.user_id == u.id &&
            l.category_id == (if cid ≠ 0 then some cid else none) &&
            l.is_active) ≠ [] →
        api_spending_check u limits txs cid today =
          .error "TypeError: unsupported operand type(s) for *: decimal.Decimal and float")) ∧
    (∀ (u : UserRec) (limits : List SpendingLimit) (txs : List Tx) (today : Date)
        (d : DashboardAlert),
      d ∈ dashboard_alerts u limits txs today ↔
        has_permission u.role "read" = true ∧
        ∃ l ∈ limits,
          l.user_id = u.id ∧ l.is_active = true ∧
          get_spent_amount l txs today > l.amount ∧
          d = { limit := l, spent := get_spent_amount l txs today,
                percentage := get_spent_amount l txs today / l.amount * 100 }) ∧
    (get_spent_amount c4limit c4txs120 c4today = 120 ∧
      is_exceeded c4limit c4txs120 c4today = true ∧
      dashboard_alerts c4user [c4limit] c4txs120 c4today ≠ [] ∧
      api_spending_check c4user [c4limit] c4txs120 0 c4today =
        .error "TypeError: unsupported operand type(s) for *: decimal.Decimal and float") := by
  refine ⟨?_, ?_, ?_⟩
  · intro u limits txs cid today
    simp only [api_spending_check]
    cases hsel : limits.filter fun l =>
        l.user_id == u.id &&
          l.category_id == (if cid ≠ 0 then some cid else none) &&
          l.is_active with
    | nil =>
      refine ⟨?_, fun _ => rfl, fun hne => absurd rfl hne⟩
      intro alerts hok
      simpa [api_check_loop] using hok.symm
    | cons l rest =>
      refine ⟨?_, fun habs => by simp at habs, fun _ => rfl⟩
      intro alerts hok
      exact nomatch hok
  · intro u limits txs today d
    unfold dashboard_alerts
    split
    · rename_i hr
      simp only [List.mem_map, List.mem_filter, Bool.and_eq_true, beq_iff_eq,
        is_exceeded, decide_eq_true_iff]
      constructor
      · rintro ⟨l, ⟨⟨hlmem, hluid⟩, hact, hexc⟩, rfl⟩
        exact ⟨hr, l, hlmem, hluid, hact, hexc, rfl⟩
      · rintro ⟨-, l, hlmem, hluid, hact, hexc, rfl⟩
        exact ⟨l, ⟨⟨hlmem, hluid⟩, hact, hexc⟩, rfl⟩
    · rename_i hr
      constructor
      · intro h
        exact absurd h (List.not_mem_nil d)
      · rintro ⟨hread, -⟩
        exact absurd hread hr
  · have hsp : get_spent_amount c4limit c4txs120 c4today = 120 := by
      norm_num [get_spent_amount, get_period_start, c4limit, c4txs120, c4today, dateLeB,
        List.filter_cons, List.filter_nil,
        show ("expense" == "expense") = true from rfl,
        show ("monthly" = "daily") = False from by decide]
    have hex : is_exceeded c4limit c4txs120 c4today = true := by
      rw [show is_exceeded c4limit c4txs120 c4today =
          decide (get_spent_amount c4limit c4txs120 c4today > c4limit.amount) from rfl, hsp]
      rw [decide_eq_true_iff]
      norm_num [c4limit]
    refine ⟨hsp, hex, ?_, rfl⟩
    simp [dashboard_alerts, hex,
      show has_permission c4user.role "read" = true from by decide,
      show (c4limit.user_id == c4user.id) = true from rfl,
      show c4limit.is_active = true from rfl]

/-- Counterexamples to claim C4 as stated.  Dashboard half: with threshold
$100 and $90 spent this month the spend is strictly above 0.8 × threshold,
yet the dashboard raises no alert — its condition is `is_exceeded`, not
the 80% level.  API half: at the claim's own $100/$120 example the
spending-check API does not report the warning and exceeded conditions —
evaluating `limit.amount * 0.8` (`Decimal` times float) raises an uncaught
`TypeError`. -/
theorem C4_counterexample :
    (get_spent_amount c4limit c4txs90 c4today > c4limit.amount * (4 / 5) ∧
      dashboard_alerts c4user [c4limit] c4txs90 c4today = []) ∧
    api_spending_check c4user [c4limit] c4txs120 0 c4today =
      .error "TypeError: unsupported operand type(s) for *: decimal.Decimal and float" := by
  have hsp : get_spent_amount c4limit c4txs90 c4today = 90 := by
    norm_num [get_spent_amount, get_period_start, c4limit, c4txs90, c4today, dateLeB,
      List.filter_cons, List.filter_nil,
      show ("expense" == "expense") = true from rfl,
      show ("monthly" = "daily") = False from by decide]
  have hex : is_exceeded c4limit c4txs90 c4today = false := by
    rw [show is_exceeded c4limit c4txs90 c4today =
        decide (get_spent_amount c4limit c4txs90 c4today > c4limit.amount) from rfl, hsp]
    exact decide_eq_false (by norm_num [c4limit])
  refine ⟨⟨?_, ?_⟩, rfl⟩
  · rw [hsp]
    norm_num [c4limit]
  · simp [dashboard_alerts, hex,
      show has_permission c4user.role "read" = true from by decide,
      show (c4limit.user_id == c4user.id) = true from rfl,
      show c4limit.is_active = true from rfl]

/-- Concrete instantiation of `C4_alert_conditions`: one matching active
limit makes the API request error, no matching limit yields the empty
alert list. -/
theorem C4_alert_conditions_witness :
    api_spending_check c4user [c4limit] c4txs90 0 c4today =
      .error "TypeError: unsupported operand type(s) for *: decimal.Decimal and float" ∧
    api_spending_check c4user [] c4txs90 0 c4today = .ok [] :=
  ⟨(C4_alert_conditions.1 c4user [c4limit] c4txs90 0 c4today).2.2 (by decide),
   (C4_alert_conditions.1 c4user [] c4txs90 0 c4today).2.1 rfl⟩

/-! ## Characterisation of ILIKE with a wrapped pattern -/

theorem likeMatch_percent_all : ∀ s : List Char, likeMatch ['%'] s = true := by
  intro s
  induction s with
  | nil => simp [likeMatch]
  | cons c cs ih => simp [likeMatch, ih]

theorem likeMatch_percent_cons (ps : List Char) :
    ∀ s, likeMatch ('%' :: ps) s = true ↔
      ∃ s₁ s₂, s = s₁ ++ s₂ ∧ likeMatch ps s₂ = true := by
  intro s
  induction s with
  | nil =>
    constructor
    · intro h
      refine ⟨[], [], rfl, ?_⟩
      simpa [likeMatch] using h
    · rintro ⟨s₁, s₂, he, h⟩
      obtain ⟨h1, h2⟩ := List.append_eq_nil.mp he.symm
      subst h1; subst h2
      simpa [likeMatch] using h
  | cons c cs ih =>
    rw [show likeMatch ('%' :: ps) (c :: cs) =
        (likeMatch ps (c :: cs) || likeMatch ('%' :: ps) cs) from by simp [likeMatch]]
    rw [Bool.or_eq_true]
    constructor
    · rintro (h | h)
      · exact ⟨[], c :: cs, rfl, h⟩
      · obtain ⟨s₁, s₂, he, h2⟩ := ih.mp h
        exact ⟨c :: s₁, s₂, by rw [List.cons_append, ← he], h2⟩
    · rintro ⟨s₁, s₂, he, h⟩
      cases s₁ with
      | nil =>
        left
        rwa [show s₂ = c :: cs from by simpa using he.symm] at h
      | cons a s₁ =>
        right
        apply ih.mpr
        rw [List.cons_append] at he
        injection he with h1 h2
        exact ⟨s₁, s₂, h2, h⟩

theorem likeMatch_literal : ∀ t : List Char, (∀ c ∈ t, c ≠ '%' ∧ c ≠ '_') →
    ∀ s, likeMatch (t ++ ['%']) s = true ↔ ∃ r, s = t ++ r := by
  intro t
  induction t with
  | nil =>
    intro _ s
    simp only [List.nil_append]
    constructor
    · intro _; exact ⟨s, rfl⟩
    · intro _; exact likeMatch_percent_all s
  | cons a t ih =>
    intro ht s
    obtain ⟨ha1, ha2⟩ := ht a (List.mem_cons_self a t)
    have ht' : ∀ c ∈ t, c ≠ '%' ∧ c ≠ '_' := fun c hc => ht c (List.mem_cons_of_mem a hc)
    cases s with
    | nil =>
      rw [List.cons_append]
      constructor
      · intro h
        simp [likeMatch, ha1] at h
      · rintro ⟨r, hr⟩
        exact absurd hr (by simp)
    | cons c cs =>
      rw [List.cons_append]
      rw [show likeMatch (a :: (t ++ ['%'])) (c :: cs) =
          ((a == '_' || a == c) && likeMatch (t ++ ['%']) cs) from by
        simp [likeMatch, ha1]]
      simp only [Bool.and_eq_true, Bool.or_eq_true, beq_iff_eq]
      rw [ih ht' cs]
      constructor
      · rintro ⟨hac, r, hr⟩
        have hce : a = c := by
          rcases hac with h | h
          · exact absurd h ha2
          · exact h
        refine ⟨r, ?_⟩
        rw [hce, hr]
        simp
      · rintro ⟨r, hr⟩
        injection hr with h1 h2
        exact ⟨Or.inr h1.symm, r, h2⟩

theorem likeMatch_wrap (t s : List Char) (ht : ∀ c ∈ t, c ≠ '%' ∧ c ≠ '_') :
    likeMatch ('%' :: (t ++ ['%'])) s = true ↔ ∃ u v, s = u ++ t ++ v := by
  rw [likeMatch_percent_cons]
  constructor
  · rintro ⟨s₁, s₂, rfl, h⟩
    obtain ⟨r, rfl⟩ := (likeMatch_literal t ht s₂).mp h
    exact ⟨s₁, r, by rw [List.append_assoc]⟩
  · rintro ⟨u, v, rfl⟩
    refine ⟨u, t ++ v, by rw [List.append_assoc], ?_⟩
    exact (likeMatch_literal t ht (t ++ v)).mpr ⟨v, rfl⟩

/-- The term occurs case-insensitively as a contiguous substring of `s`. -/
def occursCI (term s : String) : Prop :=
  ∃ u v, lc s.toList = u ++ lc term.toList ++ v

theorem wrap_lc (term : String) :
    lc ("%" ++ term ++ "%").toList = '%' :: (lc term.toList ++ ['%']) := by
  have h : ("%" ++ term ++ "%").toList = '%' :: term.toList ++ ['%'] := by
    show ("%" ++ term ++ "%").data = '%' :: term.data ++ ['%']
    rw [String.data_append, String.data_append]
    rfl
  unfold lc
  rw [h]
  simp [show Char.toLower '%' = '%' from rfl]

theorem ilike_some_wrap (s term : String)
    (hw : ∀ c ∈ lc term.toList, c ≠ '%' ∧ c ≠ '_') :
    ilike (some s) ("%" ++ term ++ "%") = true ↔ occursCI term s := by
  show likeMatch (lc ("%" ++ term ++ "%").toList) (lc s.toList) = true ↔ _
  rw [wrap_lc]
  exact likeMatch_wrap (lc term.toList) (lc s.toList) hw

theorem ilike_opt_wrap (o : Option String) (term : String)
    (hw : ∀ c ∈ lc term.toList, c ≠ '%' ∧ c ≠ '_') :
    ilike o ("%" ++ term ++ "%") = true ↔ ∃ s, o = some s ∧ occursCI term s := by
  cases o with
  | none => simp [ilike]
  | some s =>
    rw [show ilike (some s) ("%" ++ term ++ "%") = true ↔ occursCI term s from
      ilike_some_wrap s term hw]
    simp

theorem searchPred_iff (term : String) (t : Tx)
    (hw : ∀ c ∈ lc term.toList, c ≠ '%' ∧ c ≠ '_') :
    searchPred term t = true ↔
      occursCI term t.description
      ∨ (∃ s, t.notes = some s ∧ occursCI term s)
      ∨ (∃ s, t.party = some s ∧ occursCI term s) := by
  unfold searchPred
  simp only [Bool.or_eq_true]
  rw [ilike_some_wrap _ _ hw, ilike_opt_wrap _ _ hw, ilike_opt_wrap _ _ hw]
  exact or_assoc

/-- Claim C6 (amended): for a supplied search term containing no SQL LIKE
wildcard character (`%` or `_`), a transaction is retained by the filter
chain exactly when the term occurs case-insensitively as a substring of
its description, its notes or its party field (disjunction over the three
fields, `NULL` fields never matching), conjoined with the ownership,
category, type and date-range filters; a term containing `%` or `_` is
instead interpreted with LIKE wildcard semantics. -/
theorem C6_search_semantics (txs : List Tx) (u : UserRec) (p : SearchParams) (t : Tx)
    (hterm : p.search_term ≠ "")
    (hw : ∀ c ∈ lc p.search_term.toList, c ≠ '%' ∧ c ≠ '_') :
    t ∈ transactionsFiltered txs u p ↔
      t ∈ txs
      ∧ (has_permission u.role "manage_users" = false → t.user_id = u.id)
      ∧ (occursCI p.search_term t.description
         ∨ (∃ s, t.notes = some s ∧ occursCI p.search_term s)
         ∨ (∃ s, t.party = some s ∧ occursCI p.search_term s))
      ∧ (p.category_id ≠ 0 → t.category_id = p.category_id)
      ∧ (p.type ≠ "" → t.type = p.type)
      ∧ (∀ d, p.start_date = some d → dateLeB d t.transaction_date = true)
      ∧ (∀ d, p.end_date = some d → dateLeB t.transaction_date d = true) := by
  rw [mem_transactionsFiltered]
  have hs : (p.search_term ≠ "" → searchPred p.search_term t = true) ↔
      (occursCI p.search_term t.description
       ∨ (∃ s, t.notes = some s ∧ occursCI p.search_term s)
       ∨ (∃ s, t.party = some s ∧ occursCI p.search_term s)) := by
    constructor
    · intro h; exact (searchPred_iff _ _ hw).mp (h hterm)
    · intro h _; exact (searchPred_iff _ _ hw).mpr h
  rw [hs]

/-- The deliberately lowercase-matching search scenario instantiating
`C6_search_semantics`: term `lunch` retains a transaction described
`Team Lunch`. -/
theorem C6_search_semantics_witness :
    (⟨1, "expense", 5, "Team Lunch", none, none, ⟨2025, 1, 1⟩, 1, 7, 1⟩ : Tx) ∈
      transactionsFiltered
        [⟨1, "expense", 5, "Team Lunch", none, none, ⟨2025, 1, 1⟩, 1, 7, 1⟩]
        ⟨7, "viewer", "h", "Viewer", true⟩ ⟨"lunch", 0, "", none, none⟩ :=
  (C6_search_semantics _ ⟨7, "viewer", "h", "Viewer", true⟩ ⟨"lunch", 0, "", none, none⟩
      _ (by decide) (by decide)).mpr
    ⟨List.mem_singleton.mpr rfl, fun _ => rfl,
     Or.inl ⟨lc "Team ".toList, [], by decide⟩,
     fun h => absurd rfl h, fun h => absurd rfl h,
     fun d hd => by simp at hd, fun d hd => by simp at hd⟩

/-- The search scenario refuting claim C6 as stated: the term is the
single LIKE wildcard `_`. -/
def c6tx : Tx := ⟨1, "expense", 5, "x", none, none, ⟨2025, 1, 1⟩, 1, 1, 1⟩

/-- The owner of `c6tx`, a Viewer. -/
def c6user : UserRec := ⟨1, "alice", "h", "Viewer", true⟩

/-- Search parameters whose term is the LIKE wildcard `_`. -/
def c6params : SearchParams := ⟨"_", 0, "", none, none⟩

/-- Counterexample to claim C6 as stated: with search term `_`, the
transaction described `x` is retained — `_` is a LIKE wildcard matching
any single character — although the term occurs as a substring of none of
description, notes and party. -/
theorem C6_counterexample :
    c6tx ∈ transactionsFiltered [c6tx] c6user c6params ∧
    ¬ (occursCI "_" c6tx.description
       ∨ (∃ s, c6tx.notes = some s ∧ occursCI "_" s)
       ∨ (∃ s, c6tx.party = some s ∧ occursCI "_" s)) := by
  have hsp : searchPred "_" c6tx = true := by
    simp only [searchPred, c6tx, ilike,
      show ("%" ++ "_" ++ "%" : String) = "%_%" from rfl,
      show lc ("%_%" : String).toList = ['%', '_', '%'] from rfl,
      show lc ("x" : String).toList = ['x'] from rfl]
    simp [likeMatch]
  constructor
  · apply (mem_transactionsFiltered _ _ _ _).mpr
    refine ⟨List.mem_singleton.mpr rfl, fun _ => rfl, fun _ => ?_,
      fun h => absurd rfl h, fun h => absurd rfl h,
      fun d hd => by simp [c6params] at hd, fun d hd => by simp [c6params] at hd⟩
    simpa [c6params] using hsp
  · rintro (h | ⟨s, hs, -⟩ | ⟨s, hs, -⟩)
    · obtain ⟨u, v, huv⟩ := h
      have hoc : occursIn (lc ("_" : String).toList) (lc c6tx.description.toList) = true :=
        (occursIn_iff _ _).mpr ⟨u, v, huv⟩
      exact absurd hoc (by decide)
    · exact nomatch (show (none : Option String) = some s from hs)
    · exact nomatch (show (none : Option String) = some s from hs)

/-! ## Claim C7: receipt upload handling -/

theorem toLower_eq_dot (c : Char) (h : c.toLower = '.') : c = '.' := by
  by_cases hc : c.toNat ≥ 65 ∧ c.toNat ≤ 90
  · exfalso
    have hv : (c.toNat + 32).isValidChar := Or.inl (by omega)
    have h1 : (Char.ofNat (c.toNat + 32)).toNat = c.toNat + 32 := by
      simp only [Char.ofNat, hv, dif_pos]
      rfl
    simp only [Char.toLower] at h
    rw [if_pos hc] at h
    have h2 := congrArg Char.toNat h
    rw [h1] at h2
    have h3 : ('.' : Char).toNat = 46 := rfl
    rw [h3] at h2
    omega
  · simp only [Char.toLower] at h
    rwa [if_neg hc] at h

theorem takeUntilDot_append (e r : List Char) (he : ∀ c ∈ e, c ≠ '.') :
    takeUntilDot (e ++ '.' :: r) = some e := by
  induction e with
  | nil => simp [takeUntilDot]
  | cons c cs ih =>
    have hc := he c (List.mem_cons_self c cs)
    simp [takeUntilDot, hc, ih (fun x hx => he x (List.mem_cons_of_mem c hx))]

/-- Claim C7 (amended): a receipt whose filename fails the form's
`FileAllowed` whitelist — every extension outside pdf/png/jpg/jpeg,
including gif and extensionless names — makes form validation fail, so no
file is stored, no Receipt row is created, and the enclosing transaction
is not created either (the form is re-presented with a field error); a
file the form accepts is stored under the generated uuid-based name and a
Receipt row is created; the silent no-error skip exists only inside
`save_uploaded_file`, which returns nothing exactly for files failing its
own whitelist (pdf/png/jpg/jpeg/gif). -/
theorem C7_receipt_validation (uuidStr : String) (f : UploadedFile) :
    (fileAllowed form_receipt_exts (some f) = false →
      add_transaction uuidStr (some f) = .formError) ∧
    (fileAllowed form_receipt_exts (some f) = true → f.filename ≠ "" →
      ∃ ext, afterLastDot f.filename.toList = some ext ∧
        allowed_file f.filename = true ∧
        add_transaction uuidStr (some f) =
          .created (some (uuidStr ++ "." ++ String.mk (lc ext)))) ∧
    (save_uploaded_file uuidStr (some f) = none ↔ allowed_file f.filename = false) := by
  refine ⟨?_, ?_, ?_⟩
  · intro h
    simp [add_transaction, h]
  · intro hFA hne
    have hFA' := hFA
    simp only [fileAllowed, if_neg hne] at hFA'
    obtain ⟨ext, hmem, hends⟩ := List.any_eq_true.mp hFA'
    rw [listEndsWith_iff] at hends
    obtain ⟨pre, hpre⟩ := hends
    have hx : ('.' ∉ ext.toList) ∧ ext ∈ ALLOWED_EXTENSIONS := by
      simp only [form_receipt_exts, List.mem_cons, List.not_mem_nil, or_false] at hmem
      rcases hmem with rfl | rfl | rfl | rfl <;> exact ⟨by decide, by decide⟩
    obtain ⟨l₁, l₂, hsplit, hl₁, hl₂⟩ := List.map_eq_append_iff.mp hpre
    obtain ⟨d, l₂x, hl₂split, hd, hl₂x⟩ := List.map_eq_cons_iff.mp hl₂
    have hdd : d = '.' := toLower_eq_dot d hd
    subst hdd
    have hnotdot : ∀ c ∈ l₂x, c ≠ '.' := by
      intro c hcmem hceq
      subst hceq
      have hmm : Char.toLower '.' ∈ ext.toList := by
        rw [← hl₂x]
        exact List.mem_map_of_mem _ hcmem
      rw [show Char.toLower '.' = '.' from rfl] at hmm
      exact hx.1 hmm
    have hname : f.filename.toList = l₁ ++ '.' :: l₂x := by rw [hsplit, hl₂split]
    have hAD : afterLastDot f.filename.toList = some l₂x := by
      unfold afterLastDot
      rw [hname]
      simp only [List.reverse_append, List.reverse_cons, List.append_assoc,
        List.singleton_append]
      rw [takeUntilDot_append _ _ (fun c hc => hnotdot c (List.mem_reverse.mp hc))]
      simp
    have hAF : allowed_file f.filename = true := by
      unfold allowed_file
      rw [hAD]
      apply List.any_eq_true.mpr
      refine ⟨ext, hx.2, ?_⟩
      rw [show lc l₂x = ext.toList from hl₂x]
      exact beq_self_eq_true _
    refine ⟨l₂x, hAD, hAF, ?_⟩
    have hAD' : afterLastDot f.filename.data = some l₂x := hAD
    simp [add_transaction, hFA, save_uploaded_file, hAF, hAD',
      show lc l₂x = ext.toList from hl₂x]
  · constructor
    · intro h
      by_contra hAF
      rw [Bool.not_eq_false] at hAF
      have hexists : ∃ e, afterLastDot f.filename.toList = some e := by
        unfold allowed_file at hAF
        cases hAD : afterLastDot f.filename.toList with
        | none => rw [hAD] at hAF; simp at hAF
        | some e => exact ⟨e, rfl⟩
      obtain ⟨e, he⟩ := hexists
      have he' : afterLastDot f.filename.data = some e := he
      simp [save_uploaded_file, hAF, he'] at h
    · intro hAF
      simp [save_uploaded_file, hAF]

/-- A case-insensitively accepted `.PDF` upload instantiating
`C7_receipt_validation`: the file is stored and the transaction created. -/
theorem C7_receipt_validation_witness :
    fileAllowed form_receipt_exts (some ⟨"scan.PDF"⟩) = true ∧
    (∃ ext, afterLastDot ("scan.PDF" : String).toList = some ext ∧
      allowed_file "scan.PDF" = true ∧
      add_transaction "u42" (some ⟨"scan.PDF"⟩) =
        .created (some ("u42" ++ "." ++ String.mk (lc ext)))) :=
  ⟨by decide, (C7_receipt_validation "u42" ⟨"scan.PDF"⟩).2.1 (by decide) (by decide)⟩

/-- Counterexample to claim C7 as stated: an `.exe` receipt is not
silently skipped with the transaction still created — the form validator
rejects it and the add-transaction submission fails, creating nothing. -/
theorem C7_counterexample :
    allowed_file "virus.exe" = false ∧
    add_transaction "3f2e" (some ⟨"virus.exe"⟩) = AddTxOutcome.formError := by
  decide

end Cashbook
